import Mathlib

/-!
Verification of the llama-stack "Responses" orchestration core.

This file gives a shallow embedding of the hand-written driver logic in
`llama_stack/providers/inline/agents/meta_reference/responses/openai_responses.py`
and of the runtime-error sanitizer in
`llama_stack/core/server/runtime_error_sanitizer.py`, and proves the spec
claims about them.

Strings are embedded as `List Char`; machine-level details (async scheduling,
pydantic validation, uuid generation, timestamps) are abstracted: validation
adapters are identities, ids and timestamps are ordinary values.
-/

namespace LlamaStack

/-- Message roles accepted by `OpenAIResponseMessage.role`. -/
inductive Role
  | system
  | developer
  | user
  | assistant
deriving DecidableEq

/-- Content parts appearing inside message content lists
(`OpenAIResponseInputMessageContentText`, `OpenAIResponseContentPartRefusal`,
output text / reasoning parts). -/
inductive ContentPart
  | inputText (text : List Char)
  | outputText (text : List Char)
  | refusal (refusal : List Char)
  | reasoningText (text : List Char)
deriving DecidableEq

/-- Embeds `OpenAIResponseMessage.content`: either a plain string or a list of parts. -/
inductive MsgContent
  | str (s : List Char)
  | parts (ps : List ContentPart)
deriving DecidableEq

/-- Embeds `OpenAIResponseMessage`: role, content, optional id and status
(`type` is the constant "message"). -/
structure ResponseMessage where
  content : MsgContent
  role : Role
  id : Option (List Char) := none
  status : Option (List Char) := none
deriving DecidableEq

/-- An input or output item (`OpenAIResponseInput` / `OpenAIResponseOutput`).
The embedded driver code distinguishes only `isinstance(item, OpenAIResponseMessage)`
from every other variant (function/web-search/mcp calls, ...), which are passed
through opaquely; `otherItem` carries their tag and payload. -/
inductive ResponseItem
  | message (m : ResponseMessage)
  | otherItem (kind : List Char) (payload : List Char)
deriving DecidableEq

/-- Embeds `OpenAIResponseError`. -/
structure ResponseError where
  code : List Char
  message : List Char
deriving DecidableEq

/-- Embeds `OpenAIResponseObject` (the fields the driver reads or builds). -/
structure ResponseObject where
  id : List Char
  created_at : Int
  model : List Char
  status : List Char
  output : List ResponseItem
  error : Option ResponseError := none
deriving DecidableEq

/-- The `input: str | list[OpenAIResponseInput]` union used throughout the driver. -/
inductive ResponseInputParam
  | str (s : List Char)
  | items (l : List ResponseItem)
deriving DecidableEq

/-- Embeds `_OpenAIResponseObjectWithInputAndMessages`: a stored response together with
its originating input items and the raw provider messages used to produce it.
The chat-message type is kept abstract (`Msg`): the driver only moves such
messages around, never inspects them. -/
structure StoredResponse (Msg : Type) where
  input : List ResponseItem
  output : List ResponseItem
  messages : List Msg

/-- Embeds `OpenAIResponsesImpl._prepend_previous_response`: build the input-item list
to persist for a chained request.  Mirrors the source: copy the previous input,
extend with the previous output, then append a single user message when the new
input is a string, else extend with the new items. -/
def prependPreviousResponse {Msg : Type} (input : ResponseInputParam)
    (previousResponse : StoredResponse Msg) : List ResponseItem :=
  let newInputItems := previousResponse.input ++ previousResponse.output
  match input with
  | .str s =>
      newInputItems ++ [ResponseItem.message { content := MsgContent.str s, role := Role.user }]
  | .items l => newInputItems ++ l

/-- The new-input increment as persisted: a string becomes one user message,
a structured list is kept as is. -/
def newInputAsItems (input : ResponseInputParam) : List ResponseItem :=
  match input with
  | .str s => [ResponseItem.message { content := MsgContent.str s, role := Role.user }]
  | .items l => l

/-- C2: For every previous response A and every new input N, the persisted
input-item list equals `A.input ++ A.output ++ N'`, where `N'` is N itself for a
structured item list and a single user message containing N for a string. -/
theorem prependPreviousResponse_eq_append {Msg : Type}
    (input : ResponseInputParam) (previousResponse : StoredResponse Msg) :
    prependPreviousResponse input previousResponse =
      previousResponse.input ++ previousResponse.output ++ newInputAsItems input := by
  cases input <;> rfl

/-- One step of the `for item in conversation_items.data` loop of
`OpenAIResponsesImpl._load_conversation_context`: a message with role user or
assistant is re-built (keeping content and id, resetting status), anything else
is skipped.  `hasattr(item, "id")` always holds, `id` being a declared field. -/
def conversationLoopStep (acc : List ResponseItem) (item : ResponseItem) : List ResponseItem :=
  match item with
  | .message m =>
      match m.role with
      | .user => acc ++ [ResponseItem.message { content := m.content, role := Role.user, id := m.id }]
      | .assistant => acc ++ [ResponseItem.message { content := m.content, role := Role.assistant, id := m.id }]
      | _ => acc
  | .otherItem _ _ => acc

/-- Embeds `OpenAIResponsesImpl._load_conversation_context`: filter the stored
conversation items (listed in ascending order) through the loop above, then
append the caller's new content — a string as a single user message, a list
item by item. -/
def loadConversationContext (conversationItems : List ResponseItem)
    (content : ResponseInputParam) : List ResponseItem :=
  let contextMessages := conversationItems.foldl conversationLoopStep []
  match content with
  | .str s => contextMessages ++ [ResponseItem.message { content := MsgContent.str s, role := Role.user }]
  | .items l => contextMessages ++ l

/-- The survivor of one stored conversation item, phrased as a `filterMap`
step: `some` rebuilt message for user/assistant messages, `none` otherwise. -/
def surviveConversationItem (item : ResponseItem) : Option ResponseItem :=
  match item with
  | .message m =>
      match m.role with
      | .user => some (ResponseItem.message { content := m.content, role := Role.user, id := m.id })
      | .assistant => some (ResponseItem.message { content := m.content, role := Role.assistant, id := m.id })
      | _ => none
  | .otherItem _ _ => none

theorem conversationFoldl_eq_filterMap (items : List ResponseItem) (acc : List ResponseItem) :
    items.foldl conversationLoopStep acc = acc ++ items.filterMap surviveConversationItem := by
  induction items generalizing acc with
  | nil => simp
  | cons item rest ih =>
      rcases item with m | ⟨kind, payload⟩
      · rcases m with ⟨content, role, id, status⟩
        cases role <;>
          simp [List.foldl_cons, conversationLoopStep, surviveConversationItem, ih]
      · simp [List.foldl_cons, conversationLoopStep, surviveConversationItem, ih]

/-- C10: loading conversation context keeps exactly the stored items that are
messages with role user or assistant (rebuilt with their content and id), drops
every other item, and appends the caller's new input after the surviving
history — a string input as one new user message, a list input item by item. -/
theorem loadConversationContext_filters_and_appends
    (conversationItems : List ResponseItem) (content : ResponseInputParam) :
    loadConversationContext conversationItems content =
      conversationItems.filterMap surviveConversationItem ++ newInputAsItems content := by
  cases content <;>
    simp [loadConversationContext, newInputAsItems, conversationFoldl_eq_filterMap]

/-- The streaming events the driver code discriminates on
(`response.created`, `response.completed`, `response.incomplete`,
`response.failed`); `incomplete` and `failed` also carry a sequence number in
the schema.  Every other of the ~30 event variants (deltas, item added/done, …)
is handled uniformly by the driver and is carried opaquely by `otherEvent`. -/
inductive StreamEvent
  | created (response : ResponseObject)
  | completed (response : ResponseObject)
  | incomplete (response : ResponseObject) (sequenceNumber : Int)
  | failed (response : ResponseObject) (sequenceNumber : Int)
  | otherEvent (tag : List Char)
deriving DecidableEq

/-- Tests `chunk.type in` the set of completed/incomplete type tags. -/
def isTerminalCI : StreamEvent → Bool
  | .completed _ => true
  | .incomplete _ _ => true
  | _ => false

/-- Tests `chunk.type` against the failed type tag. -/
def isFailedEvent : StreamEvent → Bool
  | .failed _ _ => true
  | _ => false

/-- Any of the three terminal event kinds. -/
def isTerminalEvent (e : StreamEvent) : Bool :=
  isTerminalCI e || isFailedEvent e

/-- The `type` string of a completed/incomplete chunk, as interpolated into the
multiple-terminal error message. -/
def eventTypeStr : StreamEvent → List Char
  | .created _ => "response.created".data
  | .completed _ => "response.completed".data
  | .incomplete _ _ => "response.incomplete".data
  | .failed _ _ => "response.failed".data
  | .otherEvent tag => tag

/-- Embeds `OpenAIResponsesImpl._create_refusal_response_events`: yields a `created`
event whose response is in progress with empty output, then a `completed` event
whose response's sole output is one assistant message containing exactly the
given refusal content part. -/
def createRefusalResponseEvents (refusalContent : ContentPart) (responseId : List Char)
    (createdAt : Int) (model : List Char) : List StreamEvent :=
  let initialResponse : ResponseObject :=
    { id := responseId, created_at := createdAt, model := model,
      status := "in_progress".data, output := [] }
  let refusalResponse : ResponseObject :=
    { id := responseId, created_at := createdAt, model := model,
      status := "completed".data,
      output := [ResponseItem.message { content := MsgContent.parts [refusalContent], role := Role.assistant }] }
  [StreamEvent.created initialResponse, StreamEvent.completed refusalResponse]

/-- Modelled from the spec: `StreamingResponseOrchestrator.create_response`
step 1 (the orchestrator in `streaming.py` is not part of the corpus) — when
input-side safety is configured and flags the input, the orchestrator emits the
refusal created/completed pair produced by `_create_refusal_response_events`
and stops without making any inference call; otherwise it proceeds with the
normal inference loop.  The second component counts inference calls made. -/
def orchestratorInputSafetyGate (violation : Option (List Char)) (responseId : List Char)
    (createdAt : Int) (model : List Char) (normalRun : List StreamEvent × Nat) :
    List StreamEvent × Nat :=
  match violation with
  | some reason =>
      (createRefusalResponseEvents (ContentPart.refusal reason) responseId createdAt model, 0)
  | none => normalRun

/-- C3: when input-side safety flags the input, the emitted stream is exactly
two events — a `created` event with status in_progress and empty output, then a
`completed` event with status completed whose output is exactly one assistant
message containing a single refusal content part — and no inference call is
made after the violation is detected. -/
theorem refusal_stream_two_events_no_inference (reason responseId model : List Char)
    (createdAt : Int) (normalRun : List StreamEvent × Nat) :
    orchestratorInputSafetyGate (some reason) responseId createdAt model normalRun =
      ([StreamEvent.created
          { id := responseId, created_at := createdAt, model := model,
            status := "in_progress".data, output := [] },
        StreamEvent.completed
          { id := responseId, created_at := createdAt, model := model,
            status := "completed".data,
            output := [ResponseItem.message
              { content := MsgContent.parts [ContentPart.refusal reason],
                role := Role.assistant }] }], 0) := by
  rfl

/-- The exceptions the non-streaming driver raises. -/
inductive PyError
  | valueError (msg : List Char)
  | runtimeError (msg : List Char)
deriving DecidableEq

/-- The error text extracted from a failed response:
`failed_response.error.message` when an error is present, otherwise the fixed
fallback text. -/
def failedErrorMessage (failedResponse : ResponseObject) : List Char :=
  match failedResponse.error with
  | some err => err.message
  | none => "Response stream failed without error details".data

/-- The `async for stream_chunk in stream_gen` loop of
`OpenAIResponsesImpl.create_openai_response` in non-streaming mode, with its
`final_response` / `final_event_type` / `failed_response` accumulators, and the
checks performed after the loop. -/
def consumeLoop (events : List StreamEvent)
    (finalResponse : Option (ResponseObject × List Char))
    (failedResponse : Option ResponseObject) : Except PyError ResponseObject :=
  match events with
  | [] =>
      match failedResponse with
      | some fr =>
          .error (.runtimeError ("OpenAI response failed: ".data ++ failedErrorMessage fr))
      | none =>
          match finalResponse with
          | some (r, _) => .ok r
          | none => .error (.valueError "The response stream never reached a terminal state".data)
  | e :: rest =>
      if isTerminalCI e then
        match finalResponse with
        | some (_, earlierType) =>
            .error (.valueError
              ("The response stream produced multiple terminal responses! Earlier response from ".data
                ++ earlierType))
        | none =>
            match e with
            | .completed r => consumeLoop rest (some (r, eventTypeStr e)) failedResponse
            | .incomplete r _ => consumeLoop rest (some (r, eventTypeStr e)) failedResponse
            | _ => consumeLoop rest finalResponse failedResponse
      else if isFailedEvent e then
        match e with
        | .failed r _ => consumeLoop rest finalResponse (some r)
        | _ => consumeLoop rest finalResponse failedResponse
      else consumeLoop rest finalResponse failedResponse

/-- Embeds `OpenAIResponsesImpl.create_openai_response` with `stream=False`, given the
event sequence produced by `_create_streaming_response`. -/
def createOpenAIResponseNonStreaming (events : List StreamEvent) : Except PyError ResponseObject :=
  consumeLoop events none none

/-- The response carried by the last `response.failed` event of the stream
(`failed_response` is overwritten on every failed chunk). -/
def lastFailedResponse : List StreamEvent → Option ResponseObject
  | [] => none
  | .failed r _ :: rest =>
      match lastFailedResponse rest with
      | some r' => some r'
      | none => some r
  | _ :: rest => lastFailedResponse rest

/-- The number of completed/incomplete terminal events in a stream. -/
def countTerminalCI : List StreamEvent → Nat
  | [] => 0
  | e :: rest => (if isTerminalCI e then 1 else 0) + countTerminalCI rest

theorem countTerminalCI_cons_ci (e : StreamEvent) (rest : List StreamEvent)
    (h : isTerminalCI e = true) :
    countTerminalCI (e :: rest) = 1 + countTerminalCI rest := by
  simp [countTerminalCI, h]

theorem countTerminalCI_cons_not (e : StreamEvent) (rest : List StreamEvent)
    (h : isTerminalCI e = false) :
    countTerminalCI (e :: rest) = countTerminalCI rest := by
  simp [countTerminalCI, h]

theorem finalSlot_some (p : ResponseObject × List Char) :
    (if (Option.some p).isSome then 1 else 0) = 1 := rfl

theorem finalSlot_none :
    (if (none : Option (ResponseObject × List Char)).isSome then 1 else 0) = 0 := rfl

theorem consumeLoop_multi_terminal (events : List StreamEvent)
    (finalResponse : Option (ResponseObject × List Char)) (failedResponse : Option ResponseObject)
    (h : 2 ≤ countTerminalCI events + (if finalResponse.isSome then 1 else 0)) :
    ∃ msg, consumeLoop events finalResponse failedResponse = .error (.valueError msg) := by
  induction events generalizing finalResponse failedResponse with
  | nil =>
      exfalso
      rcases finalResponse with _ | p
      · rw [finalSlot_none] at h
        simp [countTerminalCI] at h
      · rw [finalSlot_some] at h
        simp [countTerminalCI] at h
  | cons e rest ih =>
      rcases he : isTerminalCI e with _ | _
      · have hcons := countTerminalCI_cons_not e rest he
        have hcnt : 2 ≤ countTerminalCI rest + (if finalResponse.isSome then 1 else 0) := by
          rw [hcons] at h
          exact h
        rcases e with r | r | ⟨r, n⟩ | ⟨r, n⟩ | tag <;> simp [isTerminalCI] at he <;>
          · simp only [consumeLoop, isTerminalCI, isFailedEvent]
            exact ih _ _ hcnt
      · rcases finalResponse with _ | p
        · have hcnt : 1 ≤ countTerminalCI rest := by
            rw [countTerminalCI_cons_ci e rest he, finalSlot_none] at h
            omega
          rcases e with r | r | ⟨r, n⟩ | ⟨r, n⟩ | tag <;> simp [isTerminalCI] at he <;>
            · simp only [consumeLoop, isTerminalCI, if_pos]
              refine ih _ _ ?_
              rw [finalSlot_some]
              omega
        · rcases p with ⟨pr, pt⟩
          refine ⟨"The response stream produced multiple terminal responses! Earlier response from ".data
            ++ pt, ?_⟩
          simp [consumeLoop, he]

/-- C1: non-streaming consumption accepts exactly one terminal outcome — a
second completed/incomplete terminal event makes `create_openai_response` fail
with an error instead of returning either response, and a stream that ends
without any terminal event also yields an error instead of a response. -/
theorem nonStreaming_single_terminal_outcome (events : List StreamEvent) :
    (2 ≤ countTerminalCI events →
      ∃ msg, createOpenAIResponseNonStreaming events = .error (.valueError msg)) ∧
    ((∀ e ∈ events, isTerminalEvent e = false) →
      createOpenAIResponseNonStreaming events =
        .error (.valueError "The response stream never reached a terminal state".data)) := by
  constructor
  · intro h
    exact consumeLoop_multi_terminal events none none (by simpa using h)
  · intro h
    unfold createOpenAIResponseNonStreaming
    induction events with
    | nil => rfl
    | cons e rest ih =>
        have he : isTerminalEvent e = false := h e (List.mem_cons_self e rest)
        have hci : isTerminalCI e = false := by
          unfold isTerminalEvent at he
          exact (Bool.or_eq_false_iff.mp he).1
        have hf : isFailedEvent e = false := by
          unfold isTerminalEvent at he
          exact (Bool.or_eq_false_iff.mp he).2
        have hrest : ∀ x ∈ rest, isTerminalEvent x = false := fun x hx =>
          h x (List.mem_cons_of_mem e hx)
        rcases e with r | r | ⟨r, n⟩ | ⟨r, n⟩ | tag
        · simp only [consumeLoop, isTerminalCI, isFailedEvent]
          exact ih hrest
        · simp [isTerminalCI] at hci
        · simp [isTerminalCI] at hci
        · simp [isFailedEvent] at hf
        · simp only [consumeLoop, isTerminalCI, isFailedEvent]
          exact ih hrest

/-- Witness for C1 at concrete streams: two completed events trigger the
multiple-terminal error, and a stream of only non-terminal events trips the
no-terminal error. -/
theorem nonStreaming_single_terminal_outcome_witness :
    (∃ msg, createOpenAIResponseNonStreaming
        [StreamEvent.completed
          { id := "r".data, created_at := 0, model := "m".data,
            status := "completed".data, output := [] },
         StreamEvent.completed
          { id := "r".data, created_at := 0, model := "m".data,
            status := "completed".data, output := [] }] = .error (.valueError msg)) ∧
    createOpenAIResponseNonStreaming
        [StreamEvent.created
          { id := "r".data, created_at := 0, model := "m".data,
            status := "in_progress".data, output := [] },
         StreamEvent.otherEvent "response.output_text.delta".data] =
      .error (.valueError "The response stream never reached a terminal state".data) :=
  ⟨(nonStreaming_single_terminal_outcome _).1 (by decide),
   (nonStreaming_single_terminal_outcome _).2 (by decide)⟩

/-- The `failed_response` accumulator after the loop, given its value on entry. -/
def lastFailedOr (events : List StreamEvent) (failedResponse : Option ResponseObject) :
    Option ResponseObject :=
  match lastFailedResponse events with
  | some r => some r
  | none => failedResponse

theorem consumeLoop_failed_raises (events : List StreamEvent)
    (finalResponse : Option (ResponseObject × List Char)) (failedResponse : Option ResponseObject)
    (fr : ResponseObject)
    (hcount : countTerminalCI events + (if finalResponse.isSome then 1 else 0) ≤ 1)
    (hlast : lastFailedOr events failedResponse = some fr) :
    consumeLoop events finalResponse failedResponse =
      .error (.runtimeError ("OpenAI response failed: ".data ++ failedErrorMessage fr)) := by
  induction events generalizing finalResponse failedResponse with
  | nil =>
      simp only [lastFailedOr, lastFailedResponse] at hlast
      simp only [consumeLoop, hlast]
  | cons e rest ih =>
      rcases e with r | r | ⟨r, n⟩ | ⟨r, n⟩ | tag
      · simp only [consumeLoop, isTerminalCI, isFailedEvent]
        rw [countTerminalCI_cons_not (StreamEvent.created r) rest rfl] at hcount
        exact ih _ _ hcount (by simpa [lastFailedOr, lastFailedResponse] using hlast)
      · rw [countTerminalCI_cons_ci (StreamEvent.completed r) rest rfl] at hcount
        have hfr : finalResponse = none := by
          rcases finalResponse with _ | p
          · rfl
          · rw [finalSlot_some] at hcount; omega
        subst hfr
        rw [finalSlot_none] at hcount
        simp only [consumeLoop, isTerminalCI, if_pos]
        refine ih _ _ ?_ (by simpa [lastFailedOr, lastFailedResponse] using hlast)
        rw [finalSlot_some]
        omega
      · rw [countTerminalCI_cons_ci (StreamEvent.incomplete r n) rest rfl] at hcount
        have hfr : finalResponse = none := by
          rcases finalResponse with _ | p
          · rfl
          · rw [finalSlot_some] at hcount; omega
        subst hfr
        rw [finalSlot_none] at hcount
        simp only [consumeLoop, isTerminalCI, if_pos]
        refine ih _ _ ?_ (by simpa [lastFailedOr, lastFailedResponse] using hlast)
        rw [finalSlot_some]
        omega
      · simp only [consumeLoop, isTerminalCI, isFailedEvent]
        rw [countTerminalCI_cons_not (StreamEvent.failed r n) rest rfl] at hcount
        refine ih _ _ hcount ?_
        simp only [lastFailedOr, lastFailedResponse] at hlast ⊢
        rcases hrest : lastFailedResponse rest with _ | r' <;> rw [hrest] at hlast <;> exact hlast
      · simp only [consumeLoop, isTerminalCI, isFailedEvent]
        rw [countTerminalCI_cons_not (StreamEvent.otherEvent tag) rest rfl] at hcount
        exact ih _ _ hcount (by simpa [lastFailedOr, lastFailedResponse] using hlast)

theorem lastFailedResponse_isSome_of_mem (events : List StreamEvent) (r : ResponseObject) (n : Int)
    (hmem : StreamEvent.failed r n ∈ events) :
    ∃ fr, lastFailedResponse events = some fr := by
  induction events with
  | nil => cases hmem
  | cons e rest ih =>
      rcases List.mem_cons.mp hmem with heq | hmem'
      · subst heq
        simp only [lastFailedResponse]
        rcases lastFailedResponse rest with _ | r' <;> exact ⟨_, rfl⟩
      · rcases ih hmem' with ⟨fr, hfr⟩
        rcases e with r'' | r'' | ⟨r'', n''⟩ | ⟨r'', n''⟩ | tag <;>
          simp only [lastFailedResponse, hfr] <;> exact ⟨_, rfl⟩

/-- C9: in non-streaming mode, a stream containing a `response.failed` event
(alongside at most one completed/incomplete terminal event) makes
`create_openai_response` raise a RuntimeError carrying the failed response's
error message — or the fixed fallback text when no error detail is present —
instead of returning any response. -/
theorem nonStreaming_failed_event_raises (events : List StreamEvent)
    (hci : countTerminalCI events ≤ 1)
    (hfailed : ∃ r n, StreamEvent.failed r n ∈ events) :
    ∃ fr, lastFailedResponse events = some fr ∧
      createOpenAIResponseNonStreaming events =
        .error (.runtimeError ("OpenAI response failed: ".data ++ failedErrorMessage fr)) := by
  rcases hfailed with ⟨r, n, hmem⟩
  rcases lastFailedResponse_isSome_of_mem events r n hmem with ⟨fr, hfr⟩
  refine ⟨fr, hfr, ?_⟩
  exact consumeLoop_failed_raises events none none fr (by simpa using hci)
    (by simp [lastFailedOr, hfr])

/-- Witness for C9: a stream with one completed event and one failed event
carrying an error detail raises the RuntimeError built from that detail. -/
theorem nonStreaming_failed_event_raises_witness :
    ∃ fr, lastFailedResponse
        [StreamEvent.completed
          { id := "r".data, created_at := 0, model := "m".data,
            status := "completed".data, output := [] },
         StreamEvent.failed
          { id := "r".data, created_at := 0, model := "m".data,
            status := "failed".data, output := [],
            error := some { code := "ERR".data, message := "boom".data } } 2] = some fr ∧
      createOpenAIResponseNonStreaming
        [StreamEvent.completed
          { id := "r".data, created_at := 0, model := "m".data,
            status := "completed".data, output := [] },
         StreamEvent.failed
          { id := "r".data, created_at := 0, model := "m".data,
            status := "failed".data, output := [],
            error := some { code := "ERR".data, message := "boom".data } } 2] =
        .error (.runtimeError ("OpenAI response failed: ".data ++ failedErrorMessage fr)) :=
  nonStreaming_failed_event_raises _ (by decide)
    ⟨{ id := "r".data, created_at := 0, model := "m".data,
       status := "failed".data, output := [],
       error := some { code := "ERR".data, message := "boom".data } }, 2, by decide⟩

/-- The number of terminal events (completed, incomplete or failed) in a stream. -/
def countTerminalEvents : List StreamEvent → Nat
  | [] => 0
  | e :: rest => (if isTerminalEvent e then 1 else 0) + countTerminalEvents rest

/-- The `async for stream_chunk in orchestrator.create_response()` loop of
`OpenAIResponsesImpl._create_streaming_response`, projected onto its
responses-store side effect: after yielding a chunk, the terminal response is
stored exactly when the chunk is completed/incomplete, `store` is set,
`final_response` holds a response (it was just assigned from this chunk) and no
`response.failed` chunk has been observed.  The returned list records the
stored responses in order; yielding and conversation sync are orthogonal to
this claim and omitted. -/
def streamingStoreActions (events : List StreamEvent) (store : Bool)
    (failedResponse : Option ResponseObject) : List ResponseObject :=
  match events with
  | [] => []
  | e :: rest =>
      match e with
      | .completed r =>
          (if store ∧ failedResponse = none then [r] else []) ++
            streamingStoreActions rest store failedResponse
      | .incomplete r _ =>
          (if store ∧ failedResponse = none then [r] else []) ++
            streamingStoreActions rest store failedResponse
      | .failed r _ => streamingStoreActions rest store (some r)
      | _ => streamingStoreActions rest store failedResponse

theorem streamingStoreActions_of_some (events : List StreamEvent) (store : Bool)
    (r0 : ResponseObject) :
    streamingStoreActions events store (some r0) = [] := by
  induction events generalizing r0 with
  | nil => rfl
  | cons e rest ih =>
      rcases e with r | r | ⟨r, n⟩ | ⟨r, n⟩ | tag <;>
        simp [streamingStoreActions, ih]

theorem one_le_countTerminal_of_failed_mem (events : List StreamEvent) (r : ResponseObject)
    (n : Int) (hmem : StreamEvent.failed r n ∈ events) :
    1 ≤ countTerminalEvents events := by
  induction events with
  | nil => cases hmem
  | cons e rest ih =>
      rcases List.mem_cons.mp hmem with heq | hmem'
      · subst heq
        simp [countTerminalEvents, isTerminalEvent, isFailedEvent]
      · have := ih hmem'
        simp only [countTerminalEvents]
        omega

theorem streamingStoreActions_empty_of_failed (events : List StreamEvent) (store : Bool)
    (failedResponse : Option ResponseObject)
    (hone : countTerminalEvents events ≤ 1)
    (hfailed : ∃ r n, StreamEvent.failed r n ∈ events) :
    streamingStoreActions events store failedResponse = [] := by
  induction events generalizing failedResponse with
  | nil => rcases hfailed with ⟨r, n, hmem⟩; cases hmem
  | cons e rest ih =>
      rcases hfailed with ⟨r, n, hmem⟩
      rcases e with r' | r' | ⟨r', n'⟩ | ⟨r', n'⟩ | tag
      · have hmem' : StreamEvent.failed r n ∈ rest := by
          rcases List.mem_cons.mp hmem with heq | h'
          · cases heq
          · exact h'
        simp only [streamingStoreActions]
        refine ih _ ?_ ⟨r, n, hmem'⟩
        simp only [countTerminalEvents, isTerminalEvent, isTerminalCI, isFailedEvent,
          Bool.true_or, Bool.false_or, Bool.or_false, Bool.or_true, if_true, if_false] at hone
        omega
      · exfalso
        have hmem' : StreamEvent.failed r n ∈ rest := by
          rcases List.mem_cons.mp hmem with heq | h'
          · cases heq
          · exact h'
        have h1 := one_le_countTerminal_of_failed_mem rest r n hmem'
        simp only [countTerminalEvents, isTerminalEvent, isTerminalCI, isFailedEvent,
          Bool.true_or, Bool.false_or, Bool.or_false, Bool.or_true, if_true, if_false] at hone
        omega
      · exfalso
        have hmem' : StreamEvent.failed r n ∈ rest := by
          rcases List.mem_cons.mp hmem with heq | h'
          · cases heq
          · exact h'
        have h1 := one_le_countTerminal_of_failed_mem rest r n hmem'
        simp only [countTerminalEvents, isTerminalEvent, isTerminalCI, isFailedEvent,
          Bool.true_or, Bool.false_or, Bool.or_false, Bool.or_true, if_true, if_false] at hone
        omega
      · simp only [streamingStoreActions]
        exact streamingStoreActions_of_some rest store r'
      · have hmem' : StreamEvent.failed r n ∈ rest := by
          rcases List.mem_cons.mp hmem with heq | h'
          · cases heq
          · exact h'
        simp only [streamingStoreActions]
        refine ih _ ?_ ⟨r, n, hmem'⟩
        simp only [countTerminalEvents, isTerminalEvent, isTerminalCI, isFailedEvent,
          Bool.true_or, Bool.false_or, Bool.or_false, Bool.or_true, if_true, if_false] at hone
        omega

theorem streamingStoreActions_mem (events : List StreamEvent) (store : Bool)
    (failedResponse : Option ResponseObject) (r' : ResponseObject)
    (hmem : r' ∈ streamingStoreActions events store failedResponse) :
    store = true ∧
      (StreamEvent.completed r' ∈ events ∨ ∃ n, StreamEvent.incomplete r' n ∈ events) := by
  induction events generalizing failedResponse with
  | nil => cases hmem
  | cons e rest ih =>
      rcases e with r | r | ⟨r, n⟩ | ⟨r, n⟩ | tag
      · simp only [streamingStoreActions] at hmem
        rcases ih _ hmem with ⟨hs, hloc⟩
        refine ⟨hs, ?_⟩
        rcases hloc with h | ⟨n', h⟩
        · exact Or.inl (List.mem_cons_of_mem _ h)
        · exact Or.inr ⟨n', List.mem_cons_of_mem _ h⟩
      · simp only [streamingStoreActions] at hmem
        rcases List.mem_append.mp hmem with hhead | htail
        · by_cases hc : store = true ∧ failedResponse = none
          · rw [if_pos hc] at hhead
            rcases List.mem_singleton.mp hhead with rfl
            exact ⟨hc.1, Or.inl (List.mem_cons_self _ _)⟩
          · rw [if_neg hc] at hhead
            cases hhead
        · rcases ih _ htail with ⟨hs, hloc⟩
          refine ⟨hs, ?_⟩
          rcases hloc with h | ⟨n', h⟩
          · exact Or.inl (List.mem_cons_of_mem _ h)
          · exact Or.inr ⟨n', List.mem_cons_of_mem _ h⟩
      · simp only [streamingStoreActions] at hmem
        rcases List.mem_append.mp hmem with hhead | htail
        · by_cases hc : store = true ∧ failedResponse = none
          · rw [if_pos hc] at hhead
            rcases List.mem_singleton.mp hhead with rfl
            exact ⟨hc.1, Or.inr ⟨n, List.mem_cons_self _ _⟩⟩
          · rw [if_neg hc] at hhead
            cases hhead
        · rcases ih _ htail with ⟨hs, hloc⟩
          refine ⟨hs, ?_⟩
          rcases hloc with h | ⟨n', h⟩
          · exact Or.inl (List.mem_cons_of_mem _ h)
          · exact Or.inr ⟨n', List.mem_cons_of_mem _ h⟩
      · simp only [streamingStoreActions] at hmem
        rcases ih _ hmem with ⟨hs, hloc⟩
        refine ⟨hs, ?_⟩
        rcases hloc with h | ⟨n', h⟩
        · exact Or.inl (List.mem_cons_of_mem _ h)
        · exact Or.inr ⟨n', List.mem_cons_of_mem _ h⟩
      · simp only [streamingStoreActions] at hmem
        rcases ih _ hmem with ⟨hs, hloc⟩
        refine ⟨hs, ?_⟩
        rcases hloc with h | ⟨n', h⟩
        · exact Or.inl (List.mem_cons_of_mem _ h)
        · exact Or.inr ⟨n', List.mem_cons_of_mem _ h⟩

/-- C8: for a response generation emitting at most one terminal event, a
stream containing a `response.failed` event never stores the response, even
with `store = true`; and every store action happens only for the response of
a completed/incomplete terminal event, with `store` set and no failure
observed anywhere in the stream. -/
theorem streaming_failed_never_persisted (events : List StreamEvent) (store : Bool)
    (hone : countTerminalEvents events ≤ 1) :
    ((∃ r n, StreamEvent.failed r n ∈ events) →
      streamingStoreActions events store none = []) ∧
    (∀ r' ∈ streamingStoreActions events store none,
      store = true ∧
        (StreamEvent.completed r' ∈ events ∨ ∃ n, StreamEvent.incomplete r' n ∈ events) ∧
        ¬∃ fr n, StreamEvent.failed fr n ∈ events) := by
  constructor
  · intro hfailed
    exact streamingStoreActions_empty_of_failed events store none hone hfailed
  · intro r' hmem
    rcases streamingStoreActions_mem events store none r' hmem with ⟨hs, hloc⟩
    refine ⟨hs, hloc, ?_⟩
    intro hfailed
    rw [streamingStoreActions_empty_of_failed events store none hone hfailed] at hmem
    cases hmem

/-- Witness for C8: a stream whose only terminal event is `response.failed`
stores nothing even with `store = true`. -/
theorem streaming_failed_never_persisted_witness :
    streamingStoreActions
      [StreamEvent.failed
        { id := "r".data, created_at := 0, model := "m".data,
          status := "failed".data, output := [] } 1] true none = [] :=
  (streaming_failed_never_persisted _ true (by decide)).1
    ⟨{ id := "r".data, created_at := 0, model := "m".data,
       status := "failed".data, output := [] }, 1, by decide⟩

/-- Externally visible side effects the create-response driver can perform. -/
inductive Effect
  | getConversation (conversationId : List Char)
  | listConversationItems (conversationId : List Char)
  | getResponse (responseId : List Char)
  | inferenceCall
  | storeResponse
  | emitEvent
deriving DecidableEq

/-- The errors `create_openai_response` can raise before streaming starts. -/
inductive CreateError
  | mutuallyExclusiveParams
  | invalidConversationId (conversationId : List Char)
  | conversationNotFound (conversationId : List Char)
deriving DecidableEq

/-- Embeds `conversation.startswith` with the conversation id marker. -/
def startsWithConv : List Char → Bool
  | 'c' :: 'o' :: 'n' :: 'v' :: '_' :: _ => true
  | _ => false

/-- The validation-and-conversation prelude of
`OpenAIResponsesImpl.create_openai_response`, up to handing the request to the
lazy `_create_streaming_response` generator (whose body has not run yet):
first the mutual-exclusion check between `previous_response_id` and
`conversation`, then — only when a conversation is referenced — the id-shape
check, the existence check (`get_conversation`) and the history load
(`_load_conversation_context`).  Returns the effects performed, paired with the
raised error or the input the stream will consume. -/
def createOpenAIResponsePrelude (previousResponseId : Option (List Char))
    (conversation : Option (List Char))
    (conversationExists : List Char → Bool)
    (conversationItems : List Char → List ResponseItem)
    (input : ResponseInputParam) :
    List Effect × Except CreateError ResponseInputParam :=
  if conversation.isSome ∧ previousResponseId.isSome then
    ([], .error .mutuallyExclusiveParams)
  else
    match conversation with
    | none => ([], .ok input)
    | some cid =>
        if startsWithConv cid = false then
          ([], .error (.invalidConversationId cid))
        else if conversationExists cid = false then
          ([Effect.getConversation cid], .error (.conversationNotFound cid))
        else
          ([Effect.getConversation cid, Effect.listConversationItems cid],
            .ok (ResponseInputParam.items (loadConversationContext (conversationItems cid) input)))

/-- C7: a request supplying both a `previous_response_id` and a `conversation`
reference is rejected with the mutual-exclusion validation error, with no
effect performed — in particular before any inference call, store access, or
event. -/
theorem mutually_exclusive_continuation_rejected
    (previousResponseId conversation : List Char)
    (conversationExists : List Char → Bool)
    (conversationItems : List Char → List ResponseItem)
    (input : ResponseInputParam) :
    createOpenAIResponsePrelude (some previousResponseId) (some conversation)
        conversationExists conversationItems input =
      ([], .error .mutuallyExclusiveParams) := by
  rfl

/-- Embeds `OpenAIResponsesImpl._process_input_with_previous_response`.  The helpers
that live outside this module are abstracted as parameters: `convert` is
`convert_response_input_to_chat_messages` (with its optional
`previous_messages` argument), `newToolContext` is `ToolContext(tools)`,
`recoverTools` is `ToolContext.recover_tools_from_previous_response`, and
`getResponseObject` is `responses_store.get_response_object`.  The pydantic
re-validation of stored messages is the identity. -/
def processInputWithPreviousResponse {Msg ToolCtx : Type}
    (convert : ResponseInputParam → Option (List Msg) → List Msg)
    (newToolContext : ToolCtx)
    (recoverTools : ToolCtx → StoredResponse Msg → ToolCtx)
    (getResponseObject : List Char → StoredResponse Msg)
    (input : ResponseInputParam) (previousResponseId : Option (List Char)) :
    ResponseInputParam × List Msg × ToolCtx :=
  match previousResponseId with
  | some prevId =>
      let previousResponse := getResponseObject prevId
      let allInput := prependPreviousResponse input previousResponse
      let messages :=
        if previousResponse.messages.isEmpty then
          convert (ResponseInputParam.items allInput) none
        else
          previousResponse.messages ++ convert input (some previousResponse.messages)
      (ResponseInputParam.items allInput, messages,
        recoverTools newToolContext previousResponse)
  | none => (input, convert input none, newToolContext)

/-- C4: for a chained request referencing previous response A — when A has a
non-empty stored raw message list, the inference message list is A's stored
messages followed by the conversion of only the new input increment; when A has
no stored messages, it is reconstructed by converting the concatenated item
list `A.input ++ A.output ++ new`. -/
theorem processInput_reuses_or_reconstructs {Msg ToolCtx : Type}
    (convert : ResponseInputParam → Option (List Msg) → List Msg)
    (newToolContext : ToolCtx)
    (recoverTools : ToolCtx → StoredResponse Msg → ToolCtx)
    (getResponseObject : List Char → StoredResponse Msg)
    (input : ResponseInputParam) (prevId : List Char) :
    ((getResponseObject prevId).messages ≠ [] →
      processInputWithPreviousResponse convert newToolContext recoverTools
          getResponseObject input (some prevId) =
        (ResponseInputParam.items (prependPreviousResponse input (getResponseObject prevId)),
         (getResponseObject prevId).messages ++
           convert input (some (getResponseObject prevId).messages),
         recoverTools newToolContext (getResponseObject prevId))) ∧
    ((getResponseObject prevId).messages = [] →
      processInputWithPreviousResponse convert newToolContext recoverTools
          getResponseObject input (some prevId) =
        (ResponseInputParam.items (prependPreviousResponse input (getResponseObject prevId)),
         convert (ResponseInputParam.items (prependPreviousResponse input (getResponseObject prevId))) none,
         recoverTools newToolContext (getResponseObject prevId))) := by
  constructor
  · intro h
    simp [processInputWithPreviousResponse, List.isEmpty_iff, h]
  · intro h
    simp [processInputWithPreviousResponse, List.isEmpty_iff, h]

/-- Witness for C4 at concrete instantiations of the abstract collaborators:
one stored response with raw messages (reused verbatim), one without
(reconstructed from the concatenated items). -/
theorem processInput_reuses_or_reconstructs_witness :
    (@processInputWithPreviousResponse Nat Nat
        (fun _ prev => if prev.isSome then [7] else [9]) 0 (fun t _ => t + 1)
        (fun _ => { input := [], output := [], messages := [5] })
        (ResponseInputParam.str "hi".data) (some "resp_1".data) =
      (ResponseInputParam.items
        [ResponseItem.message { content := MsgContent.str "hi".data, role := Role.user }],
       [5, 7], 1)) ∧
    (@processInputWithPreviousResponse Nat Nat
        (fun _ prev => if prev.isSome then [7] else [9]) 0 (fun t _ => t + 1)
        (fun _ => { input := [], output := [], messages := [] })
        (ResponseInputParam.str "hi".data) (some "resp_1".data) =
      (ResponseInputParam.items
        [ResponseItem.message { content := MsgContent.str "hi".data, role := Role.user }],
       [9], 1)) :=
  ⟨(processInput_reuses_or_reconstructs _ _ _ _ _ _).1 (by decide),
   (processInput_reuses_or_reconstructs _ _ _ _ _ _).2 rfl⟩

/-- The ASCII uppercase-to-lowercase mapping. -/
def lowerTable : List (Char × Char) :=
  [('A', 'a'), ('B', 'b'), ('C', 'c'), ('D', 'd'), ('E', 'e'), ('F', 'f'),
   ('G', 'g'), ('H', 'h'), ('I', 'i'), ('J', 'j'), ('K', 'k'), ('L', 'l'),
   ('M', 'm'), ('N', 'n'), ('O', 'o'), ('P', 'p'), ('Q', 'q'), ('R', 'r'),
   ('S', 's'), ('T', 't'), ('U', 'u'), ('V', 'v'), ('W', 'w'), ('X', 'x'),
   ('Y', 'y'), ('Z', 'z')]

/-- ASCII lowercasing, embedding `str.lower()` / `re.IGNORECASE` as used by the
sanitizer rules (whose literals are plain ASCII). -/
def pyLower (c : Char) : Char :=
  ((lowerTable.find? (fun p => p.1 == c)).map Prod.snd).getD c

/-- Lowercase a whole string. -/
def lowerL (s : List Char) : List Char := s.map pyLower

/-- A single or double quote, the characters admitted by the optional
quote atoms of `MODEL_NOT_FOUND_REGEX`. -/
def isQuoteChar (c : Char) : Bool := c = '\'' || c = '"'

/-- A character admitted by the capture group `[^'" ]+`. -/
def groupChar (c : Char) : Bool := !(isQuoteChar c || c = ' ')

/-- Match a lowercase literal case-insensitively against the head of `s`,
returning the remainder on success. -/
def stripLower (lit s : List Char) : Option (List Char) :=
  match lit, s with
  | [], s => some s
  | _ :: _, [] => none
  | l :: lit', c :: s' => if pyLower c = l then stripLower lit' s' else none

/-- Consume one optional leading quote, as the greedy atom `['\x22]?` does.
When a quote is present, consuming it is forced: on the backtracking branch
the group `[^'\x22 ]+` would have to start at the quote character, which it
excludes. -/
def stripOptQuote (s : List Char) : List Char :=
  match s with
  | [] => []
  | c :: s' => if isQuoteChar c then s' else c :: s'

/-- Attempt `MODEL_NOT_FOUND_REGEX` (pattern
`model ['\x22]?(?P<model>[^'\x22 ]+)['\x22]? not found`, IGNORECASE) at the
start of `s`, returning the `model` capture group on success.  The greedy group
is forced to take the maximal run of admissible characters: any shorter choice
leaves a group character next, which neither the optional quote nor the
literal `\x20not found` (starting with a space) can consume. -/
def matchHere (s : List Char) : Option (List Char) :=
  match stripLower "model ".data s with
  | none => none
  | some s1 =>
      let s2 := stripOptQuote s1
      let g := s2.takeWhile groupChar
      let rest := s2.dropWhile groupChar
      if g.isEmpty then none
      else
        match stripLower " not found".data (stripOptQuote rest) with
        | some _ => some g
        | none => none

/-- Embeds `re.search` with `MODEL_NOT_FOUND_REGEX`: the leftmost position where the
pattern matches, returning its `model` capture group. -/
def searchModelNotFound (s : List Char) : Option (List Char) :=
  match s with
  | [] => none
  | c :: s' =>
      match matchHere (c :: s') with
      | some g => some g
      | none => searchModelNotFound s'

/-- Embeds `RuntimeErrorRule.evaluate` for the single MODEL_NOT_FOUND rule of
`RUNTIME_ERROR_RULES`: on a regex match the template
`Requested model '...' is unavailable.` is instantiated with the capture
group (formatting never fails); with no match, the rule's substring list is
empty, so the substring branch yields nothing. -/
def modelNotFoundEvaluate (errorMsg : List Char) : Option (List Char) :=
  match searchModelNotFound errorMsg with
  | some m => some ("Requested model '".data ++ m ++ "' is unavailable.".data)
  | none => none

/-- Embeds `SanitizedRuntimeError`. -/
structure SanitizedRuntimeError where
  code : List Char
  message : List Char
deriving DecidableEq

/-- Embeds `sanitize_runtime_error`: try each rule of `RUNTIME_ERROR_RULES` (there is
exactly one) and wrap the first truthy sanitized message with the rule's code;
return `none` when no rule produces a message. -/
def sanitize_runtime_error (message : List Char) : Option SanitizedRuntimeError :=
  match modelNotFoundEvaluate message with
  | some m =>
      if m.isEmpty then none
      else some { code := "MODEL_NOT_FOUND".data, message := m }
  | none => none

theorem pyLower_space (c : Char) (h : pyLower c = ' ') : c = ' ' := by
  unfold pyLower at h
  rcases hf : lowerTable.find? (fun p => p.1 == c) with _ | p
  · rw [hf] at h
    simpa using h
  · rw [hf] at h
    simp only [Option.map_some', Option.getD_some] at h
    have hmem : p ∈ lowerTable := List.mem_of_find?_eq_some hf
    have hall : ∀ q ∈ lowerTable, q.2 ≠ ' ' := by decide
    exact absurd h (hall p hmem)

theorem stripLower_lowerL (w r : List Char) : stripLower (lowerL w) (w ++ r) = some r := by
  induction w with
  | nil => rfl
  | cons c w' ih =>
      show stripLower (pyLower c :: lowerL w') ((c :: w') ++ r) = some r
      rw [List.cons_append]
      simp only [stripLower, if_pos rfl]
      exact ih

theorem groupChar_not_quote (c : Char) (h : groupChar c = true) : isQuoteChar c = false := by
  simp only [groupChar, Bool.not_eq_true', Bool.or_eq_false_iff] at h
  exact h.1

/-- The head of this string, when there is one, is not a quote. -/
def headNotQuote : List Char → Prop
  | [] => True
  | c :: _ => isQuoteChar c = false

/-- The head of this string, when there is one, is not a group character. -/
def headNotGroup : List Char → Prop
  | [] => True
  | c :: _ => groupChar c = false

theorem stripOptQuote_quote (q rest : List Char) (hq : q = ['\''] ∨ q = ['"']) :
    stripOptQuote (q ++ rest) = rest := by
  rcases hq with rfl | rfl <;> simp [stripOptQuote, isQuoteChar]

theorem stripOptQuote_notQuote (rest : List Char) (h : headNotQuote rest) :
    stripOptQuote rest = rest := by
  cases rest with
  | nil => rfl
  | cons c t =>
      simp only [headNotQuote] at h
      simp [stripOptQuote, h]

theorem takeWhile_all_append (m rest : List Char)
    (hall : ∀ c ∈ m, groupChar c = true) (hrest : headNotGroup rest) :
    (m ++ rest).takeWhile groupChar = m ∧ (m ++ rest).dropWhile groupChar = rest := by
  induction m with
  | nil =>
      cases rest with
      | nil => exact ⟨rfl, rfl⟩
      | cons c t =>
          simp only [headNotGroup] at hrest
          constructor <;> simp [List.takeWhile_cons, List.dropWhile_cons, hrest]
  | cons c m' ih =>
      have hc : groupChar c = true := hall c (List.mem_cons_self _ _)
      have hall' : ∀ x ∈ m', groupChar x = true := fun x hx => hall x (List.mem_cons_of_mem _ hx)
      rcases ih hall' with ⟨h1, h2⟩
      constructor <;> simp [List.takeWhile_cons, List.dropWhile_cons, hc, h1, h2]

theorem matchHere_core (w1 q1 m q2 w2 suf : List Char)
    (hw1 : lowerL w1 = "model ".data)
    (hw2 : lowerL w2 = " not found".data)
    (hq1 : q1 = [] ∨ q1 = ['\''] ∨ q1 = ['"'])
    (hq2 : q2 = [] ∨ q2 = ['\''] ∨ q2 = ['"'])
    (hm : m ≠ [])
    (hmc : ∀ c ∈ m, groupChar c = true) :
    matchHere (w1 ++ (q1 ++ (m ++ (q2 ++ (w2 ++ suf))))) = some m := by
  obtain ⟨w2', hw2eq⟩ : ∃ w2', w2 = ' ' :: w2' := by
    cases w2 with
    | nil => exact absurd hw2 (by decide)
    | cons c t =>
        have hc : pyLower c = ' ' ∧ lowerL t = "not found".data := by
          simpa [lowerL] using hw2
        exact ⟨t, by rw [pyLower_space c hc.1]⟩
  obtain ⟨c0, m', hmeq⟩ : ∃ c0 m', m = c0 :: m' := by
    cases m with
    | nil => exact absurd rfl hm
    | cons c0 m' => exact ⟨c0, m', rfl⟩
  have hc0 : groupChar c0 = true := hmc c0 (hmeq ▸ List.mem_cons_self _ _)
  have h1 : stripLower "model ".data (w1 ++ (q1 ++ (m ++ (q2 ++ (w2 ++ suf))))) =
      some (q1 ++ (m ++ (q2 ++ (w2 ++ suf)))) := by
    rw [← hw1]
    exact stripLower_lowerL w1 _
  have h2 : stripOptQuote (q1 ++ (m ++ (q2 ++ (w2 ++ suf)))) = m ++ (q2 ++ (w2 ++ suf)) := by
    rcases hq1 with rfl | hq1'
    · rw [List.nil_append]
      apply stripOptQuote_notQuote
      rw [hmeq, List.cons_append]
      exact groupChar_not_quote c0 hc0
    · exact stripOptQuote_quote _ _ hq1'
  have hng : headNotGroup (q2 ++ (w2 ++ suf)) := by
    rcases hq2 with rfl | rfl | rfl
    · rw [List.nil_append, hw2eq, List.cons_append]
      show groupChar ' ' = false
      decide
    · show groupChar '\'' = false
      decide
    · show groupChar '"' = false
      decide
  have h3 := takeWhile_all_append m (q2 ++ (w2 ++ suf)) hmc hng
  have h4 : stripOptQuote (q2 ++ (w2 ++ suf)) = w2 ++ suf := by
    rcases hq2 with rfl | hq2'
    · rw [List.nil_append]
      apply stripOptQuote_notQuote
      rw [hw2eq, List.cons_append]
      show isQuoteChar ' ' = false
      decide
    · exact stripOptQuote_quote _ _ hq2'
  have h5 : stripLower " not found".data (w2 ++ suf) = some suf := by
    rw [← hw2]
    exact stripLower_lowerL w2 suf
  have hne : m.isEmpty = false := by
    rw [hmeq]
    rfl
  simp only [matchHere, h1, h2, h3.1, h3.2, h4, h5, hne]
  rfl

theorem searchModelNotFound_append (pre rest : List Char)
    (hpre : ∀ i < pre.length, matchHere ((pre ++ rest).drop i) = none) :
    searchModelNotFound (pre ++ rest) = searchModelNotFound rest := by
  induction pre with
  | nil => rfl
  | cons p pre' ih =>
      have h0 : matchHere (p :: (pre' ++ rest)) = none := by
        have := hpre 0 (by simp)
        simpa using this
      rw [List.cons_append, searchModelNotFound, h0]
      apply ih
      intro i hi
      have := hpre (i + 1) (by simpa using Nat.succ_lt_succ hi)
      simpa using this

/-- C5: a RuntimeError message containing (at its first match position) a
substring of the form `model '<m>' not found` — case-insensitive in the
literals, quotes around `<m>` optional on either side, `<m>` a nonempty run
of characters other than quotes and spaces — is sanitized to code
MODEL_NOT_FOUND with message exactly `Requested model '<m>' is unavailable.`.
The prefix hypothesis states that the pattern does not match at any earlier
position, i.e. the exhibited occurrence is the leftmost one `re.search`
finds. -/
theorem sanitize_model_not_found (pre w1 q1 m q2 w2 suf : List Char)
    (hw1 : lowerL w1 = "model ".data)
    (hw2 : lowerL w2 = " not found".data)
    (hq1 : q1 = [] ∨ q1 = ['\''] ∨ q1 = ['"'])
    (hq2 : q2 = [] ∨ q2 = ['\''] ∨ q2 = ['"'])
    (hm : m ≠ [])
    (hmc : ∀ c ∈ m, groupChar c = true)
    (hpre : ∀ i < pre.length,
      matchHere ((pre ++ (w1 ++ (q1 ++ (m ++ (q2 ++ (w2 ++ suf)))))).drop i) = none) :
    sanitize_runtime_error (pre ++ (w1 ++ (q1 ++ (m ++ (q2 ++ (w2 ++ suf)))))) =
      some { code := "MODEL_NOT_FOUND".data,
             message := "Requested model '".data ++ m ++ "' is unavailable.".data } := by
  have hcore := matchHere_core w1 q1 m q2 w2 suf hw1 hw2 hq1 hq2 hm hmc
  have hsearch : searchModelNotFound (pre ++ (w1 ++ (q1 ++ (m ++ (q2 ++ (w2 ++ suf)))))) =
      some m := by
    rw [searchModelNotFound_append pre _ hpre]
    obtain ⟨c1, w1', hw1eq⟩ : ∃ c1 w1', w1 = c1 :: w1' := by
      cases w1 with
      | nil => exact absurd hw1 (by decide)
      | cons c1 w1' => exact ⟨c1, w1', rfl⟩
    rw [hw1eq] at hcore ⊢
    rw [List.cons_append, searchModelNotFound]
    rw [List.cons_append] at hcore
    rw [hcore]
  have hne : ("Requested model '".data ++ m ++ "' is unavailable.".data).isEmpty = false := rfl
  simp only [sanitize_runtime_error, modelNotFoundEvaluate, hsearch, hne]
  rfl

/-- Witness for C5: the sanitized scenario message from the test corpus,
with a nonempty prefix, mixed case and quotes present. -/
theorem sanitize_model_not_found_witness :
    sanitize_runtime_error
        ("E: ".data ++ ("Model ".data ++ ("'".data ++ ("x".data ++
          ("'".data ++ (" not found".data ++ ".".data)))))) =
      some { code := "MODEL_NOT_FOUND".data,
             message := "Requested model '".data ++ "x".data ++ "' is unavailable.".data } :=
  sanitize_model_not_found "E: ".data "Model ".data "'".data "x".data "'".data
    " not found".data ".".data (by decide) (by decide)
    (Or.inr (Or.inl (by decide))) (Or.inr (Or.inl (by decide)))
    (by decide) (by decide) (by decide)

/-- C6 counterexample: on a RuntimeError message matching no recognized
pattern, `sanitize_runtime_error` does not fall back to a generic
internal-error sanitized value — it returns `none` (no sanitized error at
all), exactly as the unit test
`test_unmapped_runtime_error_defaults_to_internal_error` asserts. -/
theorem sanitize_unmapped_no_internal_code :
    sanitize_runtime_error "Unexpected failure in obscure subsystem".data = none := by
  decide

/-- C6 amended: for every RuntimeError whose message matches no recognized
pattern, `sanitize_runtime_error` returns `none` — no rule fires and no
sanitized message is fabricated; mapping the absent result to a generic
internal-error response is left to the caller. -/
theorem sanitize_unmapped_returns_none (msg : List Char)
    (h : searchModelNotFound msg = none) :
    sanitize_runtime_error msg = none := by
  simp [sanitize_runtime_error, modelNotFoundEvaluate, h]

/-- Witness for the amended C6 at the unit test's concrete message. -/
theorem sanitize_unmapped_returns_none_witness :
    sanitize_runtime_error "Unexpected failure in obscure subsystem".data = none :=
  sanitize_unmapped_returns_none "Unexpected failure in obscure subsystem".data (by decide)

end LlamaStack
